import Mathlib

/-!
Verification of the reviewer-assignment scheduler (`RM/mysql/t_user.py`)
against its natural-language specification.

The embedding models the three tables the module reads and writes
(`user`, `current`, `history`) as Lean lists, and each Python function
(`pop`, `set_status`, `reset_status`, `fetch`, `__contains__`) as a pure
function over that state.  Timestamps appear at two granularities in the
source: `status_since` is only ever consumed through `DATEDIFF` (calendar
days), so it is modelled as a day number; `current.start` and `history.end`
are compared as instants, so they are modelled as plain integers.
SQL `ORDER BY current, pages_diff` guarantees only a sorted permutation
of the rows (`sqlOrdered` below) — the SQL has no tiebreaker, so the
order of equal-key rows is unspecified; the executable `snapshot` is one
admissible determinization of that contract (`List.insertionSort` over
the table enumeration order).
Python's `AssertionError` on argument checks is modelled by `Except`;
argument *type* assertions (`type(count) == int`, …) cannot fail for
well-typed inputs and so never produce an error in the model.
-/

namespace RM

/-- A row of the `user` table.  `status_since` is a calendar-day number
(the source only reads it through `DATEDIFF`). -/
structure User where
  id : String
  name : String
  phone : String
  role : Int
  available : Bool
  status : Int
  status_since : Int
  pages : Int
deriving DecidableEq

/-- A row of the `current` table (an active assignment). -/
structure CurrentRow where
  reviewerid : String
  start : Int
deriving DecidableEq

/-- A row of the `history` table (a completed assignment); `hid` is the
monotonic `id` column, `endTime` the `end` column. -/
structure HistoryRow where
  hid : Nat
  reviewerid : String
  endTime : Int
deriving DecidableEq

/-- The database state visible to `t_user.py`. -/
structure State where
  users : List User
  current : List CurrentRow
  history : List HistoryRow
deriving DecidableEq

/-- Errors raised by the module: Python `AssertionError` with its message. -/
inductive RMErr where
  | assertionError (msg : String)
deriving DecidableEq

/-- A row of `pop`'s SELECT result:
`(id, name, phone, role, status, pages_diff, current)`, where `status` is
the effective status (possibly the `-1` anti-repeat sentinel). -/
structure Row where
  id : String
  name : String
  phone : String
  role : Int
  status : Int
  pages_diff : Int
  current : Nat
deriving DecidableEq

/-- `WHERE available = 1 AND role = 1` over the `user` table. -/
def eligible (s : State) : List User :=
  s.users.filter (fun u => u.available && decide (u.role = 1))

/-- `SELECT MIN(pages) FROM user WHERE available = 1 AND role = 1`.
The default `0` for an empty table is never observed: the outer query
produces rows only when at least one eligible user exists. -/
def minPages (s : State) : Int :=
  match (eligible s).map (fun u => u.pages) with
  | [] => 0
  | p :: ps => ps.foldl min p

/-- `COUNT(1)` of `current` rows joined on `user.id = current.reviewerid`,
with `IFNULL(current, 0)` giving `0` when no row matches. -/
def currentCount (s : State) (uid : String) : Nat :=
  (s.current.filter (fun c => decide (c.reviewerid = uid))).length

/-- `SELECT reviewerid, end FROM history ORDER BY id DESC LIMIT 1`:
the history row of maximum `id`. -/
def latestHistory (s : State) : Option HistoryRow :=
  s.history.foldl
    (fun acc h =>
      match acc with
      | none => some h
      | some a => if a.hid < h.hid then some h else acc)
    none

/-- The scalar sub-query of `pop`'s `IF`: the latest history row's
`reviewerid`, provided `NOT EXISTS (SELECT 1 FROM current WHERE
current.start > latest_history.end AND current.reviewerid != '')`;
otherwise no row (NULL). -/
def antiRepeatTarget (s : State) : Option String :=
  match latestHistory s with
  | none => none
  | some lh =>
      if s.current.any (fun c => decide (lh.endTime < c.start) && decide (c.reviewerid ≠ "")) then
        none
      else
        some lh.reviewerid

/-- `IF(id = (sub-query), -1, status)`: the effective status column. -/
def effStatus (s : State) (u : User) : Int :=
  if antiRepeatTarget s = some u.id then -1 else u.status

/-- One result row of `pop`'s SELECT for user `u`. -/
def rowOf (s : State) (u : User) : Row :=
  { id := u.id, name := u.name, phone := u.phone, role := u.role
    status := effStatus s u
    pages_diff := u.pages - minPages s
    current := currentCount s u.id }

/-- The SELECT's result rows in `user`-table enumeration order, before
`ORDER BY`. -/
def rowsEnum (s : State) : List Row :=
  (eligible s).map (rowOf s)

/-- The `ORDER BY current, pages_diff` comparison: strictly fewer active
assignments, or equally many and no larger page differential. -/
def rowLe (a b : Row) : Prop :=
  a.current < b.current ∨ (a.current = b.current ∧ a.pages_diff ≤ b.pages_diff)

instance : DecidableRel rowLe := fun a b =>
  inferInstanceAs (Decidable (a.current < b.current ∨
    (a.current = b.current ∧ a.pages_diff ≤ b.pages_diff)))

instance : IsTotal Row rowLe :=
  ⟨fun a b => by unfold rowLe; omega⟩

instance : IsTrans Row rowLe :=
  ⟨fun a b c hab hbc => by unfold rowLe at *; omega⟩

/-- The ordered SELECT result that `pop` fetches.  This is one admissible
determinization of `ORDER BY current, pages_diff` (a stable sort over
enumeration order); the SQL itself fixes only the keys, not the order of
equal-key rows — see `sqlOrdered` and the claim C5 theorems. -/
def snapshot (s : State) : List Row :=
  List.insertionSort rowLe (rowsEnum s)

/-- `[item for item in selectResults if item[0] not in excludes]`. -/
def excludeStage (l : List Row) (excludes : List String) : List Row :=
  l.filter (fun r => decide (r.id ∉ excludes))

/-- `[item for item if item[4] == 0] + [item for item if item[4] != 0]`
(the `urgent` branch). -/
def urgentStage (l : List Row) : List Row :=
  l.filter (fun r => decide (r.status = 0)) ++ l.filter (fun r => decide (r.status ≠ 0))

/-- `[item for item in selectResults if item[4] == 0 or item[4] == 1]`
(the `hide_busy` branch). -/
def busyStage (l : List Row) : List Row :=
  l.filter (fun r => decide (r.status = 0 ∨ r.status = 1))

/-- The three in-Python filter stages of `pop`, in source order. -/
def pipeline (s : State) (excludes : List String) (urgent hide_busy : Bool) : List Row :=
  let l1 := excludeStage (snapshot s) excludes
  let l2 := if urgent then urgentStage l1 else l1
  if hide_busy then busyStage l2 else l2

/-- Python's `l[0:count]`: for non-negative `count` the first `count`
elements, for negative `count` everything but the last `-count`
elements (clamped at the empty list). -/
def pySlice (l : List α) (count : Int) : List α :=
  if count < 0 then l.take (l.length + count).toNat else l.take count.toNat

/-- The list returned by `pop(count, excludes, urgent, hide_busy)`. -/
def popRows (s : State) (count : Int) (excludes : List String)
    (urgent hide_busy : Bool) : List Row :=
  pySlice (pipeline s excludes urgent hide_busy) count

/-- `pop` itself.  Its only assertions check argument *types*
(`type(count) == int`, `type(excludes) == list`), which cannot fail for
well-typed inputs, so the model never returns an error. -/
def pop (s : State) (count : Int) (excludes : List String)
    (urgent hide_busy : Bool) : Except RMErr (List Row) :=
  Except.ok (popRows s count excludes urgent hide_busy)

/-- `__contains__(user_id, only_reviewer)`: row existence under
`available = 1` (and `role = 1` only when `only_reviewer`). -/
def containsUser (s : State) (user_id : String) (only_reviewer : Bool) : Bool :=
  if only_reviewer then
    s.users.any (fun u => u.available && decide (u.role = 1) && decide (u.id = user_id))
  else
    s.users.any (fun u => u.available && decide (u.id = user_id))

/-- `set_status(user_id, status)` at time `now` (a day number):
asserts `__contains__(user_id)` (note: `only_reviewer` defaults to
`False`, so the role is *not* checked), asserts `status in [0, 1, 2]`,
then updates the matching row's `status` and `status_since`. -/
def set_status (s : State) (user_id : String) (status : Int) (now : Int) :
    Except RMErr State :=
  if ¬ containsUser s user_id false then
    Except.error (RMErr.assertionError "invalid arg: user_id")
  else if ¬ (status = 0 ∨ status = 1 ∨ status = 2) then
    Except.error (RMErr.assertionError "invalid arg: status")
  else
    Except.ok
      { s with
        users := s.users.map (fun u =>
          if u.id = user_id then { u with status := status, status_since := now } else u) }

/-- One user's update under
`UPDATE user SET status = 0, status_since = NOW()
 WHERE status != 0 AND DATEDIFF(NOW(), status_since) >= days`. -/
def resetUser (days now : Int) (u : User) : User :=
  if u.status ≠ 0 ∧ days ≤ now - u.status_since then
    { u with status := 0, status_since := now }
  else u

/-- `reset_status(days)` at time `now` (a day number). -/
def reset_status (s : State) (days now : Int) : State :=
  { s with users := s.users.map (resetUser days now) }

/-- `fetch(user_id)`: `SELECT id, name, phone, role, status FROM user
WHERE id = %s` with `fetchone()` — the first matching row, no
availability or role filter; `None` when no row matches. -/
def fetch (s : State) (user_id : String) :
    Option (String × String × String × Int × Int) :=
  (s.users.find? (fun u => decide (u.id = user_id))).map
    (fun u => (u.id, u.name, u.phone, u.role, u.status))

/-! ### Concrete states used as evaluation points -/

/-- Reviewer A of the spec's worked example: idle, minimum backlog. -/
def userA : User := ⟨"A", "a", "1", 1, true, 0, 0, 10⟩

/-- Reviewer B: idle, two pages above the minimum backlog. -/
def userB : User := ⟨"B", "b", "2", 1, true, 0, 0, 12⟩

/-- Reviewer C: busy, one active assignment. -/
def userC : User := ⟨"C", "c", "3", 1, true, 1, 0, 10⟩

/-- The spec's worked-example pool; C holds one active assignment. -/
def poolState : State := ⟨[userA, userB, userC], [⟨"C", 5⟩], []⟩

/-- The same pool with a history record making A the anti-repeat target:
A's last completion ended at 9 and the only active assignment started
at 5 ≤ 9. -/
def poolStateAR : State := ⟨[userA, userB, userC], [⟨"C", 5⟩], [⟨1, "A", 9⟩]⟩

/-- A single available user whose role is Ordinary (0), not Reviewer. -/
def stateOrdinary : State := ⟨[⟨"u1", "n", "p", 0, true, 0, 0, 0⟩], [], []⟩

/-- A single unavailable, Ordinary, VeryBusy user. -/
def stateHidden : State := ⟨[⟨"x", "n", "p", 0, false, 2, 0, 0⟩], [], []⟩

/-- Users for the timeout sweep: `a` stale busy, `b` recent very-busy,
`c` idle. -/
def stateStale : State :=
  ⟨[⟨"a", "", "", 1, true, 1, 0, 0⟩, ⟨"b", "", "", 1, true, 2, 8, 0⟩,
    ⟨"c", "", "", 1, true, 0, 0, 0⟩], [], []⟩

/-! ### Helper lemmas -/

theorem mem_of_mem_pySlice {l : List α} {count : Int} {a : α}
    (h : a ∈ pySlice l count) : a ∈ l := by
  unfold pySlice at h
  split at h <;> exact List.mem_of_mem_take h

theorem containsUser_false_iff (s : State) (uid : String) :
    containsUser s uid false = true ↔ ∃ u ∈ s.users, u.available = true ∧ u.id = uid := by
  simp [containsUser, List.any_eq_true, Bool.and_eq_true]

/-- Claim C10: `fetch` looks up purely by id: `none` exactly when no row has the
id, and any stored row with the id (available or not, any role) makes the
result `some` of a stored row with that id. -/
theorem fetch_pure_id_lookup :
    ∀ (s : State) (uid : String),
      ((fetch s uid = none) ↔ ∀ u ∈ s.users, u.id ≠ uid)
      ∧ (∀ u ∈ s.users, u.id = uid →
          ∃ v ∈ s.users, v.id = uid ∧
            fetch s uid = some (v.id, v.name, v.phone, v.role, v.status)) := by
  intro s uid
  constructor
  · unfold fetch
    rw [Option.map_eq_none']
    rw [List.find?_eq_none]
    simp
  · intro u hu huid
    rcases hfind : s.users.find? (fun u => decide (u.id = uid)) with _ | v
    · rw [List.find?_eq_none] at hfind
      exact absurd (by simpa using huid) (hfind u hu)
    · refine ⟨v, List.mem_of_find?_eq_some hfind, ?_, ?_⟩
      · simpa using List.find?_some hfind
      · simp [fetch, hfind]

theorem fetch_pure_id_lookup_witness :
    ∃ v ∈ stateHidden.users, v.id = "x" ∧
      fetch stateHidden "x" = some (v.id, v.name, v.phone, v.role, v.status) :=
  (fetch_pure_id_lookup stateHidden "x").2 ⟨"x", "n", "p", 0, false, 2, 0, 0⟩
    (by decide) (by decide)

/-- Claim C2: With `hide_busy = true` every entry of `pop`'s result has effective
status Idle (0) or Busy (1); the anti-repeat sentinel (-1) and VeryBusy (2)
never appear, regardless of `count`. -/
theorem pop_hide_busy_only_idle_or_busy :
    ∀ (s : State) (count : Int) (excludes : List String) (urgent : Bool)
      (l : List Row),
      pop s count excludes urgent true = Except.ok l →
      ∀ r ∈ l, r.status = 0 ∨ r.status = 1 := by
  intro s count excludes urgent l hok r hr
  have hl : l = popRows s count excludes urgent true := by
    simpa [pop] using hok.symm
  subst hl
  have hpipe : r ∈ pipeline s excludes urgent true := mem_of_mem_pySlice hr
  unfold pipeline at hpipe
  simp only [if_pos] at hpipe
  have := List.of_mem_filter hpipe
  simpa using this

theorem pop_hide_busy_only_idle_or_busy_witness :
    (⟨"B", "b", "2", 1, 0, 2, 0⟩ : Row).status = 0 ∨
      (⟨"B", "b", "2", 1, 0, 2, 0⟩ : Row).status = 1 :=
  pop_hide_busy_only_idle_or_busy poolStateAR 2 [] false
    [⟨"B", "b", "2", 1, 0, 2, 0⟩, ⟨"C", "c", "3", 1, 1, 0, 1⟩] rfl
    ⟨"B", "b", "2", 1, 0, 2, 0⟩ (by decide)

/-- Claim C8: For `count ≥ 0` the result of `pop` has length at most `count` and
at most the number of reviewers surviving the filter pipeline; `count = 0`
gives the empty list, and an empty eligible pool gives the empty list. -/
theorem pop_truncation_bound :
    ∀ (s : State) (count : Int) (excludes : List String) (urgent hide_busy : Bool),
      0 ≤ count →
      (popRows s count excludes urgent hide_busy).length ≤ count.toNat
      ∧ (popRows s count excludes urgent hide_busy).length ≤
          (pipeline s excludes urgent hide_busy).length
      ∧ (count = 0 → popRows s count excludes urgent hide_busy = [])
      ∧ (eligible s = [] → popRows s count excludes urgent hide_busy = []) := by
  intro s count excludes urgent hide_busy hc
  have hslice : popRows s count excludes urgent hide_busy =
      (pipeline s excludes urgent hide_busy).take count.toNat := by
    unfold popRows pySlice
    rw [if_neg (by omega)]
  refine ⟨?_, ?_, ?_, ?_⟩
  · rw [hslice, List.length_take]
    exact Nat.min_le_left _ _
  · rw [hslice, List.length_take]
    exact Nat.min_le_right _ _
  · intro h0
    subst h0
    simp [hslice]
  · intro hempty
    have hsnap : snapshot s = [] := by
      simp [snapshot, rowsEnum, hempty]
    rw [hslice]
    unfold pipeline excludeStage urgentStage busyStage
    rw [hsnap]
    cases urgent <;> cases hide_busy <;> simp

theorem pop_truncation_bound_witness :
    (popRows poolState 2 [] false true).length ≤ (2 : Int).toNat :=
  (pop_truncation_bound poolState 2 [] false true (by decide)).1

/-- Claim C4 counterexample: With `count = -1` on the worked-example pool, `pop`
raises nothing and returns a non-empty pick list (the Python slice
`selectResults[0:-1]`), so a negative count is not rejected. -/
theorem pop_negative_count_cex :
    pop poolState (-1) [] false true =
      Except.ok [⟨"A", "a", "1", 1, 0, 0, 0⟩, ⟨"B", "b", "2", 1, 0, 2, 0⟩]
    ∧ ([⟨"A", "a", "1", 1, 0, 0, 0⟩, ⟨"B", "b", "2", 1, 0, 2, 0⟩] : List Row) ≠ [] :=
  ⟨rfl, by decide⟩

/-- Claim C4 amended: `pop` validates only argument types; a negative `count` is
accepted without error, and the result is the Python slice dropping the
last `-count` surviving entries (clamped at the empty list). -/
theorem pop_negative_count_sliced :
    ∀ (s : State) (count : Int) (excludes : List String) (urgent hide_busy : Bool),
      count < 0 →
      ∃ l, pop s count excludes urgent hide_busy = Except.ok l ∧
        l.length = ((pipeline s excludes urgent hide_busy).length + count).toNat := by
  intro s count excludes urgent hide_busy hc
  refine ⟨popRows s count excludes urgent hide_busy, rfl, ?_⟩
  unfold popRows pySlice
  rw [if_pos hc, List.length_take]
  omega

theorem urgentStage_perm (l : List Row) : (urgentStage l).Perm l := by
  have h := List.filter_append_perm (fun r => decide (r.status = 0)) l
  unfold urgentStage
  have hf : l.filter (fun r => decide (r.status ≠ 0)) =
      l.filter (fun r => ! decide (r.status = 0)) := by
    simp [decide_not]
  rw [hf]
  exact h

theorem urgentStage_filter_idle (l : List Row) :
    (urgentStage l).filter (fun r => decide (r.status = 0)) =
      l.filter (fun r => decide (r.status = 0)) := by
  unfold urgentStage
  rw [List.filter_append]
  have h1 : (l.filter (fun r => decide (r.status = 0))).filter
      (fun r => decide (r.status = 0)) = l.filter (fun r => decide (r.status = 0)) := by
    rw [List.filter_filter]
    simp
  have h2 : (l.filter (fun r => decide (r.status ≠ 0))).filter
      (fun r => decide (r.status = 0)) = [] := by
    rw [List.filter_filter]
    apply List.filter_eq_nil_iff.2
    intro a _
    simp only [Bool.and_eq_true, decide_eq_true_eq]
    tauto
  rw [h1, h2, List.append_nil]

theorem urgentStage_filter_nonidle (l : List Row) :
    (urgentStage l).filter (fun r => decide (r.status ≠ 0)) =
      l.filter (fun r => decide (r.status ≠ 0)) := by
  unfold urgentStage
  rw [List.filter_append]
  have h1 : (l.filter (fun r => decide (r.status = 0))).filter
      (fun r => decide (r.status ≠ 0)) = [] := by
    rw [List.filter_filter]
    apply List.filter_eq_nil_iff.2
    intro a _
    simp only [Bool.and_eq_true, decide_eq_true_eq]
    tauto
  have h2 : (l.filter (fun r => decide (r.status ≠ 0))).filter
      (fun r => decide (r.status ≠ 0)) = l.filter (fun r => decide (r.status ≠ 0)) := by
    rw [List.filter_filter]
    simp
  rw [h1, h2, List.nil_append]

/-- Claim C6: The urgency stage of `pop` is a stable partition of the
post-exclusion list: it is a permutation (nothing dropped or duplicated,
same length), the first block is exactly the Idle reviewers and the rest
exactly the non-Idle ones, and each block keeps its prior relative order
(the Idle and non-Idle sublists are unchanged as filters). -/
theorem pop_urgent_stable_partition :
    ∀ (s : State) (excludes : List String),
      (urgentStage (excludeStage (snapshot s) excludes)).Perm
          (excludeStage (snapshot s) excludes)
      ∧ (∀ r ∈ (urgentStage (excludeStage (snapshot s) excludes)).take
            ((excludeStage (snapshot s) excludes).filter
              (fun r => decide (r.status = 0))).length,
          r.status = 0)
      ∧ (∀ r ∈ (urgentStage (excludeStage (snapshot s) excludes)).drop
            ((excludeStage (snapshot s) excludes).filter
              (fun r => decide (r.status = 0))).length,
          r.status ≠ 0)
      ∧ (urgentStage (excludeStage (snapshot s) excludes)).filter
            (fun r => decide (r.status = 0))
          = (excludeStage (snapshot s) excludes).filter (fun r => decide (r.status = 0))
      ∧ (urgentStage (excludeStage (snapshot s) excludes)).filter
            (fun r => decide (r.status ≠ 0))
          = (excludeStage (snapshot s) excludes).filter (fun r => decide (r.status ≠ 0))
      ∧ (urgentStage (excludeStage (snapshot s) excludes)).length
          = (excludeStage (snapshot s) excludes).length := by
  intro s excludes
  refine ⟨urgentStage_perm _, ?_, ?_, urgentStage_filter_idle _,
    urgentStage_filter_nonidle _, (urgentStage_perm _).length_eq⟩
  · intro r hr
    rw [show urgentStage (excludeStage (snapshot s) excludes) =
        (excludeStage (snapshot s) excludes).filter (fun r => decide (r.status = 0)) ++
          (excludeStage (snapshot s) excludes).filter (fun r => decide (r.status ≠ 0))
      from rfl, List.take_left] at hr
    simpa using List.of_mem_filter hr
  · intro r hr
    rw [show urgentStage (excludeStage (snapshot s) excludes) =
        (excludeStage (snapshot s) excludes).filter (fun r => decide (r.status = 0)) ++
          (excludeStage (snapshot s) excludes).filter (fun r => decide (r.status ≠ 0))
      from rfl, List.drop_left] at hr
    simpa using List.of_mem_filter hr

theorem pop_urgent_stable_partition_witness :
    (urgentStage (excludeStage (snapshot poolState) [])).Perm
      (excludeStage (snapshot poolState) []) :=
  (pop_urgent_stable_partition poolState []).1

/-- Claim C9: Mutations preserve `status ∈ {0,1,2}`: a successful `set_status`
leaves every stored status in the set (it rejects any other new status
with an error, mutating nothing), and `reset_status` only ever writes
status 0.  The read operations (`pop`, `fetch`, `containsUser`) are pure
functions of the state and write nothing by construction. -/
theorem status_invariant_preserved :
    ∀ (s : State) (uid : String) (st now d now2 : Int),
      (∀ u ∈ s.users, u.status = 0 ∨ u.status = 1 ∨ u.status = 2) →
      ((∀ s₂, set_status s uid st now = Except.ok s₂ →
          ∀ u ∈ s₂.users, u.status = 0 ∨ u.status = 1 ∨ u.status = 2)
       ∧ (¬ (st = 0 ∨ st = 1 ∨ st = 2) →
          ∃ e, set_status s uid st now = Except.error e)
       ∧ (∀ u ∈ (reset_status s d now2).users,
          u.status = 0 ∨ u.status = 1 ∨ u.status = 2)) := by
  intro s uid st now d now2 hinv
  refine ⟨?_, ?_, ?_⟩
  · intro s₂ hok u hu
    unfold set_status at hok
    split at hok
    · exact absurd hok (by simp)
    · split at hok
      · exact absurd hok (by simp)
      · rename_i hst
        have hs₂ : s₂.users = s.users.map (fun u =>
            if u.id = uid then { u with status := st, status_since := now } else u) := by
          cases hok
          rfl
        rw [hs₂] at hu
        rcases List.mem_map.1 hu with ⟨v, hv, rfl⟩
        by_cases hid : v.id = uid
        · rw [if_pos hid]
          simpa using not_not.1 hst
        · rw [if_neg hid]
          exact hinv v hv
  · intro hst
    unfold set_status
    rw [show (if ¬ (st = 0 ∨ st = 1 ∨ st = 2) then
        Except.error (α := State) (RMErr.assertionError "invalid arg: status")
      else
        Except.ok { s with users := s.users.map (fun u =>
          if u.id = uid then { u with status := st, status_since := now } else u) })
      = Except.error (RMErr.assertionError "invalid arg: status") from if_pos hst]
    split
    · exact ⟨_, rfl⟩
    · exact ⟨_, rfl⟩

  · intro u hu
    rcases List.mem_map.1 hu with ⟨v, hv, rfl⟩
    unfold resetUser
    split
    · left
      rfl
    · exact hinv v hv

theorem status_invariant_preserved_witness :
    (⟨"a", "", "", 1, true, 1, 0, 0⟩ : User).status = 0 ∨
      (⟨"a", "", "", 1, true, 1, 0, 0⟩ : User).status = 1 ∨
      (⟨"a", "", "", 1, true, 1, 0, 0⟩ : User).status = 2 :=
  (status_invariant_preserved stateStale "a" 0 0 7 3 (by decide)).2.2
    ⟨"a", "", "", 1, true, 1, 0, 0⟩ (by decide)

/-- Claim C7: `reset_status(days)` at time `now`: every user whose status is not
Idle and whose elapsed days since `status_since` reach `days` becomes Idle
with `status_since = now`; every other user's record is unchanged; the
sweep is idempotent and is a total function (no error when nothing
matches — it then returns the state unchanged). -/
theorem reset_status_reclamation :
    ∀ (s : State) (days now : Int),
      0 ≤ days →
      ((reset_status s days now).users.length = s.users.length
       ∧ (∀ i (h : i < s.users.length),
           (((s.users.get ⟨i, h⟩).status ≠ 0 ∧
               days ≤ now - (s.users.get ⟨i, h⟩).status_since) →
              (reset_status s days now).users[i]? =
                some { s.users.get ⟨i, h⟩ with status := 0, status_since := now })
           ∧ (¬ ((s.users.get ⟨i, h⟩).status ≠ 0 ∧
               days ≤ now - (s.users.get ⟨i, h⟩).status_since) →
              (reset_status s days now).users[i]? = some (s.users.get ⟨i, h⟩)))
       ∧ reset_status (reset_status s days now) days now = reset_status s days now
       ∧ ((∀ u ∈ s.users, ¬ (u.status ≠ 0 ∧ days ≤ now - u.status_since)) →
          reset_status s days now = s)) := by
  intro s days now _
  refine ⟨by simp [reset_status], ?_, ?_, ?_⟩
  · intro i h
    have hget : (reset_status s days now).users[i]? =
        some (resetUser days now (s.users.get ⟨i, h⟩)) := by
      simp [reset_status, List.getElem?_map, List.getElem?_eq_getElem h]
    constructor
    · intro hcond
      rw [hget, resetUser, if_pos hcond]
    · intro hcond
      rw [hget, resetUser, if_neg hcond]
  · have husers : ((reset_status s days now).users.map (resetUser days now)) =
        s.users.map (resetUser days now) := by
      show ((s.users.map (resetUser days now)).map (resetUser days now)) = _
      rw [List.map_map]
      apply List.map_congr_left
      intro u _
      show resetUser days now (resetUser days now u) = resetUser days now u
      unfold resetUser
      split
      · rw [if_neg (by simp)]
      · rfl
    show ({ reset_status s days now with
        users := (reset_status s days now).users.map (resetUser days now) } : State) = _
    rw [husers]
    rfl
  · intro hnone
    show ({ s with users := s.users.map (resetUser days now) } : State) = s
    have : s.users.map (resetUser days now) = s.users := by
      have h1 : s.users.map (resetUser days now) = s.users.map id :=
        List.map_congr_left (fun u hu => by
          show resetUser days now u = u
          unfold resetUser
          rw [if_neg (hnone u hu)])
      rw [h1, List.map_id]
    rw [this]

theorem reset_status_reclamation_witness :
    (reset_status stateStale 7 10).users.length = stateStale.users.length :=
  (reset_status_reclamation stateStale 7 10 (by decide)).1

/-- The sort key of `ORDER BY current, pages_diff`. -/
def rkey (r : Row) : Nat × Int := (r.current, r.pages_diff)

/-- What the source's `ORDER BY current, pages_diff` guarantees for the
result list: some permutation of the query's rows that is sorted by the
key.  The relative order of rows with equal keys is *not* constrained —
the SQL has no tiebreaker, so any such permutation is an admissible
result; `snapshot` is one admissible determinization of this contract. -/
def sqlOrdered (rows l : List Row) : Prop :=
  l.Perm rows ∧ List.Sorted rowLe l

/-- Two eligible reviewers X and Y with identical sort keys
(equal `pages`, no active assignments). -/
def tieState : State :=
  ⟨[⟨"X", "x", "1", 1, true, 0, 0, 10⟩, ⟨"Y", "y", "2", 1, true, 0, 0, 10⟩], [], []⟩

/-- The rows of `tieState` in the reverse of enumeration order. -/
def tieSwapped : List Row :=
  [⟨"Y", "y", "2", 1, 0, 0, 0⟩, ⟨"X", "x", "1", 1, 0, 0, 0⟩]

/-- Claim C5 counterexample: `tieSwapped` satisfies everything the
`ORDER BY` of the snapshot query guarantees (`sqlOrdered`: a sorted
permutation of `tieState`'s eligible rows), yet its two equal-key rows do
not retain the `user`-table enumeration order — so tie stability is not a
consequence of the code, refuting the claimed stable sort. -/
theorem snapshot_stability_cex :
    sqlOrdered (rowsEnum tieState) tieSwapped
    ∧ tieSwapped.filter (fun r => decide (rkey r = ((0, 0) : Nat × Int))) ≠
        (rowsEnum tieState).filter (fun r => decide (rkey r = ((0, 0) : Nat × Int))) := by
  refine ⟨⟨?_, by decide⟩, by decide⟩
  rw [show rowsEnum tieState =
      [⟨"X", "x", "1", 1, 0, 0, 0⟩, ⟨"Y", "y", "2", 1, 0, 0, 0⟩] from rfl,
    show tieSwapped =
      [⟨"Y", "y", "2", 1, 0, 0, 0⟩, ⟨"X", "x", "1", 1, 0, 0, 0⟩] from rfl]
  exact List.Perm.swap _ _ _

/-- Claim C5 amended: Every result the snapshot query's `ORDER BY`
contract admits (`sqlOrdered`) is sorted ascending by `current` with ties
ascending by `pages_diff` and holds exactly the eligible reviewers' rows,
and the model's `snapshot` is one such result; the downstream stages
(exclusion, busy hiding, truncation) are sublists of their input, so they
preserve whatever relative order the snapshot arrives in, and with
`urgent = false` the whole `pop` result stays sorted.  Tie order among
equal-key reviewers is not guaranteed by the code (no tiebreaker in the
SQL); the claimed enumeration-order stability is refuted by the
counterexample. -/
theorem snapshot_sorted_order_preserved :
    ∀ (s : State),
      sqlOrdered (rowsEnum s) (snapshot s)
      ∧ (∀ l : List Row, sqlOrdered (rowsEnum s) l →
          List.Sorted rowLe l ∧ l.length = (rowsEnum s).length ∧
            ∀ r : Row, r ∈ l ↔ r ∈ rowsEnum s)
      ∧ (∀ (l : List Row) (excludes : List String),
          List.Sublist (excludeStage l excludes) l)
      ∧ (∀ l : List Row, List.Sublist (busyStage l) l)
      ∧ (∀ (l : List Row) (count : Int), List.Sublist (pySlice l count) l)
      ∧ (∀ (count : Int) (excludes : List String) (hb : Bool),
          List.Sorted rowLe (popRows s count excludes false hb)) := by
  intro s
  have hslice : ∀ (l : List Row) (count : Int), List.Sublist (pySlice l count) l := by
    intro l count
    unfold pySlice
    split <;> exact List.take_sublist _ _
  refine ⟨⟨List.perm_insertionSort rowLe (rowsEnum s),
      List.sorted_insertionSort rowLe (rowsEnum s)⟩,
    ?_, fun l excludes => List.filter_sublist _, fun l => List.filter_sublist _,
    hslice, ?_⟩
  · rintro l ⟨hperm, hsort⟩
    exact ⟨hsort, hperm.length_eq, fun r => hperm.mem_iff⟩
  · intro count excludes hb
    have hpipe : List.Sublist (pipeline s excludes false hb) (snapshot s) := by
      have hrw : pipeline s excludes false hb =
          if hb then busyStage (excludeStage (snapshot s) excludes)
          else excludeStage (snapshot s) excludes := by
        simp [pipeline]
      rw [hrw]
      cases hb
      · exact List.filter_sublist _
      · exact (List.filter_sublist _).trans (List.filter_sublist _)
    exact List.Pairwise.sublist ((hslice _ count).trans hpipe)
      (List.sorted_insertionSort rowLe (rowsEnum s))

theorem snapshot_sorted_order_preserved_witness :
    sqlOrdered (rowsEnum poolState) (snapshot poolState) :=
  (snapshot_sorted_order_preserved poolState).1

theorem foldl_latest_spec :
    ∀ (l : List HistoryRow) (acc : Option HistoryRow) (lh : HistoryRow),
      l.foldl (fun acc h =>
        match acc with
        | none => some h
        | some a => if a.hid < h.hid then some h else acc) acc = some lh →
      ((some lh = acc ∨ lh ∈ l)
       ∧ (∀ a, acc = some a → a.hid ≤ lh.hid)
       ∧ (∀ h ∈ l, h.hid ≤ lh.hid)) := by
  intro l
  induction l with
  | nil =>
      intro acc lh hfold
      simp only [List.foldl_nil] at hfold
      refine ⟨Or.inl hfold.symm, ?_, by simp⟩
      intro a ha
      rw [hfold] at ha
      cases ha
      exact Nat.le_refl _
  | cons h t ih =>
      intro acc lh hfold
      simp only [List.foldl_cons] at hfold
      rcases ih _ lh hfold with ⟨h1, h2, h3⟩
      have hstep : ∀ b, (match acc with
          | none => some h
          | some a => if a.hid < h.hid then some h else acc) = some b →
          b = h ∨ acc = some b := by
        intro b hb
        cases acc with
        | none =>
            cases hb
            exact Or.inl rfl
        | some a =>
            dsimp only at hb
            by_cases hlt : a.hid < h.hid
            · rw [if_pos hlt] at hb
              cases hb
              exact Or.inl rfl
            · rw [if_neg hlt] at hb
              exact Or.inr hb
      have hhle : h.hid ≤ lh.hid := by
        cases acc with
        | none => exact h2 h rfl
        | some a =>
            by_cases hlt : a.hid < h.hid
            · exact h2 h (if_pos hlt)
            · exact Nat.le_trans (Nat.le_of_not_lt hlt) (h2 a (if_neg hlt))
      refine ⟨?_, ?_, ?_⟩
      · rcases h1 with hacc | hmem
        · rcases hstep lh hacc.symm with rfl | hacc2
          · exact Or.inr (List.mem_cons_self _ _)
          · exact Or.inl hacc2.symm
        · exact Or.inr (List.mem_cons_of_mem _ hmem)
      · intro a ha
        subst ha
        by_cases hlt : a.hid < h.hid
        · exact Nat.le_trans (Nat.le_of_lt hlt) hhle
        · exact h2 a (if_neg hlt)
      · intro x hx
        rcases List.mem_cons.1 hx with rfl | hxt
        · exact hhle
        · exact h3 x hxt

theorem latestHistory_max (s : State) (lh : HistoryRow)
    (h : latestHistory s = some lh) :
    lh ∈ s.history ∧ ∀ x ∈ s.history, x.hid ≤ lh.hid := by
  rcases foldl_latest_spec s.history none lh h with ⟨h1, _, h3⟩
  refine ⟨?_, h3⟩
  rcases h1 with hacc | hmem
  · cases hacc
  · exact hmem

theorem antiRepeatTarget_some_iff (s : State) (rid : String) :
    antiRepeatTarget s = some rid ↔
      ∃ lh, latestHistory s = some lh ∧ rid = lh.reviewerid ∧
        ¬ ∃ c ∈ s.current, lh.endTime < c.start ∧ c.reviewerid ≠ "" := by
  rcases hl : latestHistory s with _ | lh
  · simp [antiRepeatTarget, hl]
  · have hany : (s.current.any (fun c =>
        decide (lh.endTime < c.start) && decide (c.reviewerid ≠ ""))) = true ↔
        ∃ c ∈ s.current, lh.endTime < c.start ∧ c.reviewerid ≠ "" := by
      simp [List.any_eq_true, Bool.and_eq_true]
    by_cases hc : ∃ c ∈ s.current, lh.endTime < c.start ∧ c.reviewerid ≠ ""
    · have htgt : antiRepeatTarget s = none := by
        unfold antiRepeatTarget
        rw [hl]
        dsimp only
        rw [if_pos (hany.2 hc)]
      rw [htgt]
      constructor
      · intro habs
        exact absurd habs (by simp)
      · rintro ⟨lh2, hlh2, _, hnc⟩
        cases hlh2
        exact absurd hc hnc
    · have htgt : antiRepeatTarget s = some lh.reviewerid := by
        unfold antiRepeatTarget
        rw [hl]
        dsimp only
        rw [if_neg (fun hb => hc (hany.1 hb))]
      rw [htgt]
      constructor
      · intro hsome
        exact ⟨lh, rfl, by simpa using hsome.symm, hc⟩
      · rintro ⟨lh2, hlh2, hrid, _⟩
        cases hlh2
        simpa using hrid.symm

/-- Claim C1: For an eligible reviewer in a snapshot whose stored statuses obey
the `{0,1,2}` invariant, the effective status is the `-1` anti-repeat
sentinel exactly when the reviewer's id equals the `reviewerid` of the
latest history record (the record of maximum id, as the third conjunct
certifies) and no active assignment with a non-empty `reviewerid` started
strictly after that record ended; otherwise the effective status is the
stored status. -/
theorem effStatus_antirepeat :
    ∀ (s : State) (u : User),
      (∀ v ∈ s.users, v.status = 0 ∨ v.status = 1 ∨ v.status = 2) →
      u ∈ s.users → u.available = true → u.role = 1 →
      ((effStatus s u = -1 ↔
          ∃ lh, latestHistory s = some lh ∧ u.id = lh.reviewerid ∧
            ¬ ∃ c ∈ s.current, lh.endTime < c.start ∧ c.reviewerid ≠ "")
       ∧ ((¬ ∃ lh, latestHistory s = some lh ∧ u.id = lh.reviewerid ∧
            ¬ ∃ c ∈ s.current, lh.endTime < c.start ∧ c.reviewerid ≠ "") →
          effStatus s u = u.status)
       ∧ (∀ lh, latestHistory s = some lh →
          lh ∈ s.history ∧ ∀ x ∈ s.history, x.hid ≤ lh.hid)) := by
  intro s u hinv hu _ _
  have hne : u.status ≠ -1 := by
    rcases hinv u hu with h | h | h <;> omega
  have hiff := antiRepeatTarget_some_iff s u.id
  refine ⟨?_, ?_, fun lh hlh => latestHistory_max s lh hlh⟩
  · unfold effStatus
    by_cases ht : antiRepeatTarget s = some u.id
    · rw [if_pos ht]
      exact ⟨fun _ => hiff.1 ht, fun _ => rfl⟩
    · rw [if_neg ht]
      constructor
      · intro habs
        exact absurd habs hne
      · intro hex
        exact absurd (hiff.2 hex) ht
  · intro hnot
    unfold effStatus
    rw [if_neg (fun ht => hnot (hiff.1 ht))]

theorem effStatus_antirepeat_witness :
    effStatus poolStateAR userA = -1 ↔
      ∃ lh, latestHistory poolStateAR = some lh ∧ userA.id = lh.reviewerid ∧
        ¬ ∃ c ∈ poolStateAR.current, lh.endTime < c.start ∧ c.reviewerid ≠ "" :=
  (effStatus_antirepeat poolStateAR userA (by decide) (by decide) (by decide)
    (by decide)).1

/-- Claim C3 counterexample: `stateOrdinary` holds one available user `u1` whose
role is Ordinary, so `u1` does not resolve to an eligible reviewer — yet
`set_status` succeeds and mutates the record, because the existence check
(`__contains__` with `only_reviewer` left at `False`) ignores the role. -/
theorem set_status_eligibility_cex :
    (¬ ∃ u ∈ stateOrdinary.users, u.available = true ∧ u.role = 1 ∧ u.id = "u1")
    ∧ set_status stateOrdinary "u1" 1 5 =
        Except.ok ⟨[⟨"u1", "n", "p", 0, true, 1, 5, 0⟩], [], []⟩ :=
  ⟨by decide, rfl⟩

/-- Claim C3 amended: For a valid new status, `set_status` fails (with the
`AssertionError` playing the NotFoundError role) exactly when the id does
not resolve to an *available* user — the role is not checked; and when the
id resolves it succeeds, updating exactly the matching rows' `status` and
`status_since`.  On failure no state is produced, so nothing mutates. -/
theorem set_status_available_check :
    ∀ (s : State) (uid : String) (st now : Int),
      (st = 0 ∨ st = 1 ∨ st = 2) →
      (((∃ e, set_status s uid st now = Except.error e) ↔
          ¬ ∃ u ∈ s.users, u.available = true ∧ u.id = uid)
       ∧ ((∃ u ∈ s.users, u.available = true ∧ u.id = uid) →
          set_status s uid st now = Except.ok
            { s with users := s.users.map (fun u =>
                if u.id = uid then { u with status := st, status_since := now } else u) })) := by
  intro s uid st now hst
  have hc := containsUser_false_iff s uid
  by_cases h : containsUser s uid false
  · have hok : set_status s uid st now = Except.ok
        { s with users := s.users.map (fun u =>
            if u.id = uid then { u with status := st, status_since := now } else u) } := by
      unfold set_status
      rw [if_neg (not_not_intro h), if_neg (not_not_intro hst)]
    constructor
    · rw [hok]
      simp only [iff_iff_implies_and_implies]
      constructor
      · rintro ⟨e, he⟩
        exact absurd he (by simp)
      · intro hne
        exact absurd (hc.1 h) hne
    · intro _
      exact hok
  · have herr : set_status s uid st now =
        Except.error (RMErr.assertionError "invalid arg: user_id") := by
      unfold set_status
      rw [if_pos (by simpa using h)]
    constructor
    · rw [herr]
      constructor
      · intro _
        intro hex
        exact h (hc.2 hex)
      · intro _
        exact ⟨_, rfl⟩
    · intro hex
      exact absurd (hc.2 hex) h

theorem set_status_available_check_witness :
    set_status stateOrdinary "u1" 1 5 = Except.ok
      { stateOrdinary with users := stateOrdinary.users.map (fun u =>
          if u.id = "u1" then { u with status := 1, status_since := 5 } else u) } :=
  (set_status_available_check stateOrdinary "u1" 1 5 (by decide)).2
    ⟨⟨"u1", "n", "p", 0, true, 0, 0, 0⟩, by decide⟩

theorem pop_negative_count_sliced_witness :
    ∃ l, pop poolState (-1) [] false true = Except.ok l ∧
      l.length = (((pipeline poolState [] false true).length : Int) + (-1)).toNat :=
  pop_negative_count_sliced poolState (-1) [] false true (by decide)

end RM
